import Mathlib

/-! Shallow embedding of the pattern-matching engine in
`src/exercises/08_finale/exercise/src/main.rs`.

Strings are modelled as lists of Unicode characters. Rust byte-indexed
slicing (`&s[k..]`, `&s[..k]`) is modelled by fallible byte-counting
functions whose `none` stands for the panic that a slice at a
non-character-boundary or out-of-range index raises. The scanning loop of
`Matcher::new` is modelled with explicit fuel, since the source loop can
fail to make progress; the outer `none` of its result marks fuel
exhaustion, i.e. the Rust loop running forever. -/

/-- Rust `MatcherToken<'a>`: the three token shapes of the pattern grammar. -/
inductive MatcherToken where
  | RawText (s : List Char)
  | OneOfText (alts : List (List Char))
  | WildCard
deriving DecidableEq

/-- Rust `Matcher<'a>`: original pattern text, parsed tokens, and the
running best-match counter. -/
structure Matcher where
  text : List Char
  tokens : List MatcherToken
  most_tokens_matched : Nat
deriving DecidableEq

/-- Total number of UTF-8 bytes of a string; Rust `str::len`. -/
def utf8Len (s : List Char) : Nat := (s.map Char.utf8Size).sum

/-- Rust byte slice `&s[k..]`: drop the first `k` bytes. `none` when `k`
falls inside a multi-byte character or past the end (a Rust panic). -/
def byteDrop : List Char → Nat → Option (List Char)
  | s, 0 => some s
  | [], _ => none
  | c :: rest, k => if c.utf8Size ≤ k then byteDrop rest (k - c.utf8Size) else none

/-- Rust byte slice `&s[..k]`: take the first `k` bytes. `none` when `k`
falls inside a multi-byte character or past the end (a Rust panic). -/
def byteTake : List Char → Nat → Option (List Char)
  | _, 0 => some []
  | [], _ => none
  | c :: rest, k =>
    if c.utf8Size ≤ k then (byteTake rest (k - c.utf8Size)).map (fun l => c :: l)
    else none

/-- Rust `str::starts_with(char)`. -/
def startsWithChar (c : Char) : List Char → Bool
  | [] => false
  | d :: _ => d = c

/-- Rust `str::find(&str)`: index of the first occurrence of `needle` as a
contiguous substring of the haystack (character index; for the all-ASCII
needles the source uses this coincides with the Rust byte index). -/
def findSub (needle : List Char) : List Char → Option Nat
  | [] => if needle.isEmpty then some 0 else none
  | c :: rest =>
    if List.isPrefixOf needle (c :: rest) then some 0
    else (findSub needle rest).map (fun i => i + 1)

/-- Rust `str::split(char)`: split on every occurrence of `sep`, keeping
empty pieces (so splitting the empty string yields one empty piece). -/
def splitOnChar (sep : Char) : List Char → List (List Char)
  | [] => [[]]
  | c :: rest =>
    if c = sep then [] :: splitOnChar sep rest
    else
      match splitOnChar sep rest with
      | [] => [[c]]
      | g :: gs => (c :: g) :: gs

/-- The needle the source passes to `str::find` in the literal-run arm:
the Rust raw string `r"[.(]"`, i.e. the four literal characters
`[`, `.`, `(`, `]` (not a character class). -/
def markerLit : List Char := ['[', '.', '(', ']']

/-- The scanning loop of `Matcher::new` (lines 57-89 of the source), one
fuel unit per iteration. Dispatch order follows the source: empty input
ends the loop; `.` emits a wildcard and advances one character; `(` looks
for the first `)` in the text still including the `(`, splits there on
`|` into the alternatives and resumes past the `)`, or fails the parse
when no `)` exists; a `)` at the scan position fails the parse; otherwise
the literal arm searches for the substring `[.(]` and, when the search
fails, changes nothing and loops again. -/
def newLoop : Nat → List Char → List MatcherToken → Option (Option (List MatcherToken))
  | 0, _, _ => none
  | fuel + 1, text, tokens =>
    if text.isEmpty then some (some tokens)
    else if startsWithChar '.' text then
      newLoop fuel (text.drop 1) (tokens ++ [MatcherToken.WildCard])
    else if startsWithChar '(' text then
      match List.findIdx? (fun c => c = ')') text with
      | some closeIdx =>
        newLoop fuel ((text.drop closeIdx).drop 1)
          (tokens ++ [MatcherToken.OneOfText (splitOnChar '|' (text.take closeIdx))])
      | none => some none
    else if startsWithChar ')' text then some none
    else
      match findSub markerLit text with
      | some nextIdx =>
        newLoop fuel (text.drop nextIdx) (tokens ++ [MatcherToken.RawText (text.take nextIdx)])
      | none => newLoop fuel text tokens

/-- Rust `Matcher::new`: run the scanning loop on the pattern text and,
when it ends, wrap the tokens with `most_tokens_matched` initialised to
zero. The outer `none` marks a non-terminating run (fuel exhausted); the
inner `none` is the source's `None`, a parse failure. -/
def Matcher.new (fuel : Nat) (text : List Char) : Option (Option Matcher) :=
  (newLoop fuel text []).map (fun r =>
    r.map (fun toks => { text := text, tokens := toks, most_tokens_matched := 0 }))

/-- The first-match search over the alternatives list in the `OneOfText`
arm of `Matcher::match_string` (`list_value.iter().find(...)`). -/
def selectAlternative (alts : List (List Char)) (s : List Char) : Option (List Char) :=
  alts.find? (fun v => List.isPrefixOf v s)

/-- The token loop of `Matcher::match_string` (lines 104-135). `none`
models a panic: the `unwrap` of `chars().next()` on an empty remainder at
a wildcard, or a byte slice at a non-boundary. A token that merely fails
to match breaks the loop, returning the pairs matched so far. Note the
source's `OneOfText` arm records `value.len()` bytes but advances the
cursor by `value.chars().count()` bytes. -/
def matchLoop : List MatcherToken → List Char → Option (List (MatcherToken × List Char))
  | [], _ => some []
  | MatcherToken.WildCard :: rest, s =>
    (s.head?).bind (fun c =>
      (byteTake s c.utf8Size).bind (fun matched =>
        (byteDrop s c.utf8Size).bind (fun s2 =>
          (matchLoop rest s2).map (fun l => (MatcherToken.WildCard, matched) :: l))))
  | MatcherToken.OneOfText alts :: rest, s =>
    (selectAlternative alts s).elim (some [])
      (fun v =>
        (byteTake s (utf8Len v)).bind (fun matched =>
          (byteDrop s v.length).bind (fun s2 =>
            (matchLoop rest s2).map (fun l => (MatcherToken.OneOfText alts, matched) :: l))))
  | MatcherToken.RawText v :: rest, s =>
    if List.isPrefixOf v s then
      (byteTake s (utf8Len v)).bind (fun matched =>
        (byteDrop s (utf8Len v)).bind (fun s2 =>
          (matchLoop rest s2).map (fun l => (MatcherToken.RawText v, matched) :: l)))
    else some []

/-- Rust `Matcher::match_string`: run the token loop, then update
`most_tokens_matched` when the number of matched pairs exceeds it (lines
136-138). `none` models a panic escaping the call, in which case the
counter update never executes. -/
def Matcher.match_string (m : Matcher) (s : List Char) :
    Option (List (MatcherToken × List Char) × Matcher) :=
  (matchLoop m.tokens s).map (fun pairs =>
    (pairs,
      { m with
        most_tokens_matched :=
          if pairs.length > m.most_tokens_matched then pairs.length
          else m.most_tokens_matched }))

/-- Total byte length of the matched substrings of a match result. -/
def totalMatchedBytes (pairs : List (MatcherToken × List Char)) : Nat :=
  (pairs.map (fun p => utf8Len p.2)).sum

/-- Helper: the scanning loop makes no progress on a state whose text is
nonempty, does not start with a special marker, and does not contain the
literal substring `[.(]`; with any fuel it therefore never finishes. -/
theorem newLoop_stuck (text : List Char)
    (h1 : text.isEmpty = false)
    (h2 : startsWithChar '.' text = false)
    (h3 : startsWithChar '(' text = false)
    (h4 : startsWithChar ')' text = false)
    (h5 : findSub markerLit text = none) :
    ∀ (fuel : Nat) (tokens : List MatcherToken), newLoop fuel text tokens = none := by
  intro fuel
  induction fuel with
  | zero => intro tokens; rfl
  | succ n ih =>
    intro tokens
    rw [newLoop, h1, h2, h3, h4, h5]
    · exact ih tokens

/-- Claim C1: the spec promises that `Matcher::new` always terminates, but
the literal-run arm searches for the literal substring `[.(]` and, when
that search fails, never advances: on the one-character pattern `"a"` the
scanning loop runs forever, whatever the fuel. -/
theorem new_diverges_on_single_literal :
    ∀ fuel : Nat, Matcher.new fuel ['a'] = none := by
  intro fuel
  have h := newLoop_stuck ['a'] rfl rfl rfl rfl rfl fuel []
  unfold Matcher.new
  rw [h]
  rfl

/-- Claim C2: the spec's concrete scenario parses `"abc(d|e|f)."` and
matches it against `"abcde"`, but `Matcher::new` never returns on that
very pattern: its first iteration hits the literal arm on `"abc..."`,
`find` of the literal substring `[.(]` fails, and the loop repeats with
an unchanged state forever. -/
theorem new_diverges_on_test_pattern :
    ∀ fuel : Nat, Matcher.new fuel ['a', 'b', 'c', '(', 'd', '|', 'e', '|', 'f', ')', '.'] = none := by
  intro fuel
  have h := newLoop_stuck ['a', 'b', 'c', '(', 'd', '|', 'e', '|', 'f', ')', '.']
    rfl rfl rfl rfl rfl fuel []
  unfold Matcher.new
  rw [h]
  rfl

/-- Claim C5: a close marker with no corresponding open marker should make
`Matcher::new` return `None`, but on the pattern `"a)"` the scan is stuck
on the literal `'a'` before ever reaching the `')'`: the call never
returns at all. -/
theorem new_diverges_on_unmatched_close :
    ∀ fuel : Nat, Matcher.new fuel ['a', ')'] = none := by
  intro fuel
  have h := newLoop_stuck ['a', ')'] rfl rfl rfl rfl rfl fuel []
  unfold Matcher.new
  rw [h]
  rfl

/-- Claim C3: the pattern `"."` parses to a single wildcard token, yet
matching it against the empty candidate does not "stop immediately": the
wildcard arm unwraps `chars().next()` on the empty remainder, a panic
(modelled by `none`). -/
theorem match_string_panics_on_empty_candidate_wildcard :
    Matcher.new 2 ['.'] =
      some (some { text := ['.'], tokens := [MatcherToken.WildCard], most_tokens_matched := 0 }) ∧
    Matcher.match_string
      { text := ['.'], tokens := [MatcherToken.WildCard], most_tokens_matched := 0 } [] = none :=
  ⟨rfl, rfl⟩

/-- Claim C4: parsing `"(d|e|f)"` emits an alternatives token whose first
element is `"(d"`, not `"d"`: the source splits at the index of `')'` in
the text still beginning with `'('`, so the open marker is kept inside
the first alternative, contrary to the spec's "contents between `(` and
the next `)`". -/
theorem new_keeps_open_marker_in_first_alternative :
    Matcher.new 3 ['(', 'd', '|', 'e', '|', 'f', ')'] =
      some (some
        { text := ['(', 'd', '|', 'e', '|', 'f', ')'],
          tokens := [MatcherToken.OneOfText [['(', 'd'], ['e'], ['f']]],
          most_tokens_matched := 0 }) := rfl

/-- Claim C7: matching is not prefix-bounded. The pattern
`"(x|éé)(x|éé)"` parses to two alternatives tokens; matched against the
six-byte candidate `"ééé"`, each token records the four bytes `"éé"` but
the cursor advances only two bytes (the source advances by
`chars().count()` instead of the byte offset), so the result's substrings
total eight bytes, exceeding the candidate's six. -/
theorem matched_bytes_exceed_candidate_length :
    Matcher.new 3 ['(', 'x', '|', 'é', 'é', ')', '(', 'x', '|', 'é', 'é', ')'] =
      some (some
        { text := ['(', 'x', '|', 'é', 'é', ')', '(', 'x', '|', 'é', 'é', ')'],
          tokens := [MatcherToken.OneOfText [['(', 'x'], ['é', 'é']],
            MatcherToken.OneOfText [['(', 'x'], ['é', 'é']]],
          most_tokens_matched := 0 }) ∧
    Matcher.match_string
      { text := ['(', 'x', '|', 'é', 'é', ')', '(', 'x', '|', 'é', 'é', ')'],
        tokens := [MatcherToken.OneOfText [['(', 'x'], ['é', 'é']],
          MatcherToken.OneOfText [['(', 'x'], ['é', 'é']]],
        most_tokens_matched := 0 } ['é', 'é', 'é'] =
      some ([(MatcherToken.OneOfText [['(', 'x'], ['é', 'é']], ['é', 'é']),
          (MatcherToken.OneOfText [['(', 'x'], ['é', 'é']], ['é', 'é'])],
        { text := ['(', 'x', '|', 'é', 'é', ')', '(', 'x', '|', 'é', 'é', ')'],
          tokens := [MatcherToken.OneOfText [['(', 'x'], ['é', 'é']],
            MatcherToken.OneOfText [['(', 'x'], ['é', 'é']]],
          most_tokens_matched := 2 }) ∧
    utf8Len ['é', 'é', 'é'] = 6 ∧
    totalMatchedBytes [(MatcherToken.OneOfText [['(', 'x'], ['é', 'é']], ['é', 'é']),
        (MatcherToken.OneOfText [['(', 'x'], ['é', 'é']], ['é', 'é'])] = 8 ∧
    utf8Len ['é', 'é', 'é'] <
      totalMatchedBytes [(MatcherToken.OneOfText [['(', 'x'], ['é', 'é']], ['é', 'é']),
        (MatcherToken.OneOfText [['(', 'x'], ['é', 'é']], ['é', 'é'])] :=
  ⟨rfl, rfl, rfl, rfl, by decide⟩

/-- Claim C6: whenever a `match_string` call completes (does not panic),
the updated counter equals the maximum of its previous value and the
result length, so it never decreases. -/
theorem most_tokens_matched_is_max (m : Matcher) (s : List Char)
    (pairs : List (MatcherToken × List Char)) (m' : Matcher)
    (h : m.match_string s = some (pairs, m')) :
    m'.most_tokens_matched = max m.most_tokens_matched pairs.length ∧
    m.most_tokens_matched ≤ m'.most_tokens_matched := by
  unfold Matcher.match_string at h
  cases hml : matchLoop m.tokens s with
  | none => rw [hml] at h; exact absurd h (by simp)
  | some p =>
    rw [hml] at h
    simp only [Option.map_some', Option.some.injEq, Prod.mk.injEq] at h
    obtain ⟨hp, hm⟩ := h
    subst hp
    subst hm
    constructor
    · show (if p.length > m.most_tokens_matched then p.length
          else m.most_tokens_matched) = max m.most_tokens_matched p.length
      split <;> omega
    · show m.most_tokens_matched ≤
        (if p.length > m.most_tokens_matched then p.length
          else m.most_tokens_matched)
      split <;> omega

/-- Witness for claim C6 at the matcher of pattern `"."` with its counter
at zero, matched against the candidate `"x"`. -/
theorem most_tokens_matched_is_max_witness :
    Matcher.match_string
        { text := ['.'], tokens := [MatcherToken.WildCard], most_tokens_matched := 0 } ['x'] =
      some ([(MatcherToken.WildCard, ['x'])],
        { text := ['.'], tokens := [MatcherToken.WildCard], most_tokens_matched := 1 }) ∧
    (({ text := ['.'], tokens := [MatcherToken.WildCard], most_tokens_matched := 1 } : Matcher).most_tokens_matched =
        max ({ text := ['.'], tokens := [MatcherToken.WildCard], most_tokens_matched := 0 } : Matcher).most_tokens_matched
          [(MatcherToken.WildCard, ['x'])].length ∧
      ({ text := ['.'], tokens := [MatcherToken.WildCard], most_tokens_matched := 0 } : Matcher).most_tokens_matched ≤
        ({ text := ['.'], tokens := [MatcherToken.WildCard], most_tokens_matched := 1 } : Matcher).most_tokens_matched) :=
  ⟨by decide, most_tokens_matched_is_max _ ['x'] _ _ (by decide)⟩

/-- Claim C8: the alternative selected by the `OneOfText` arm is the first
one in declared order that is a prefix of the remaining candidate: if no
alternative before `a` matches and `a` does, the search yields `a`,
whatever (possibly longer) matching alternatives follow. -/
theorem oneof_first_declared_wins (pre post : List (List Char)) (a s : List Char)
    (ha : List.isPrefixOf a s = true)
    (hpre : ∀ v ∈ pre, List.isPrefixOf v s = false) :
    selectAlternative (pre ++ a :: post) s = some a := by
  induction pre with
  | nil => simp [selectAlternative, List.find?, ha]
  | cons p ps ih =>
    have hp : List.isPrefixOf p s = false := hpre p (List.mem_cons_self p ps)
    have ih2 := ih (fun v hv => hpre v (List.mem_cons_of_mem p hv))
    simpa [selectAlternative, List.find?, hp] using ih2

/-- Witness for claim C8: among the alternatives `["z", "a", "ab"]` and
the candidate `"abc"`, both `"a"` and the longer `"ab"` match, and the
first-declared `"a"` wins. -/
theorem oneof_first_declared_wins_witness :
    List.isPrefixOf ['a'] ['a', 'b', 'c'] = true ∧
    (∀ v ∈ [['z']], List.isPrefixOf v ['a', 'b', 'c'] = false) ∧
    selectAlternative ([['z']] ++ ['a'] :: [['a', 'b']]) ['a', 'b', 'c'] = some ['a'] :=
  ⟨by decide, by decide,
    oneof_first_declared_wins [['z']] [['a', 'b']] ['a'] ['a', 'b', 'c'] (by decide) (by decide)⟩

/-- Helper: taking the first character's own byte width from a string
yields exactly that character, never a truncation of it. -/
theorem byteTake_head (c : Char) (s : List Char) :
    byteTake (c :: s) c.utf8Size = some [c] := by
  obtain ⟨k, hk⟩ : ∃ k, c.utf8Size = k + 1 :=
    ⟨c.utf8Size - 1, by have := Char.utf8Size_pos c; omega⟩
  rw [hk]
  simp [byteTake, hk]

/-- Helper: dropping the first character's own byte width from a string
yields exactly the rest of the string. -/
theorem byteDrop_head (c : Char) (s : List Char) :
    byteDrop (c :: s) c.utf8Size = some s := by
  obtain ⟨k, hk⟩ : ∃ k, c.utf8Size = k + 1 :=
    ⟨c.utf8Size - 1, by have := Char.utf8Size_pos c; omega⟩
  rw [hk]
  simp [byteDrop, hk]

/-- Claim C9: the pattern `"."` parses to a single wildcard token, and
matching it against any candidate whose first character is a multi-byte
code point yields exactly one wildcard match whose substring is that one
whole code point (the cursor advances by its full byte width). -/
theorem wildcard_matches_full_codepoint (c : Char) (s : List Char)
    (_h : 1 < c.utf8Size) :
    ∃ m : Matcher, Matcher.new 2 ['.'] = some (some m) ∧
      m.match_string (c :: s) =
        some ([(MatcherToken.WildCard, [c])],
          { text := ['.'], tokens := [MatcherToken.WildCard], most_tokens_matched := 1 }) := by
  refine ⟨{ text := ['.'], tokens := [MatcherToken.WildCard], most_tokens_matched := 0 }, rfl, ?_⟩
  unfold Matcher.match_string
  have hl : matchLoop [MatcherToken.WildCard] (c :: s) = some [(MatcherToken.WildCard, [c])] := by
    simp [matchLoop, byteTake_head, byteDrop_head]
  rw [hl]
  rfl

/-- Witness for claim C9 at the two-byte code point `'é'` followed by
`"x"`. -/
theorem wildcard_matches_full_codepoint_witness :
    1 < Char.utf8Size 'é' ∧
    (∃ m : Matcher, Matcher.new 2 ['.'] = some (some m) ∧
      m.match_string ('é' :: ['x']) =
        some ([(MatcherToken.WildCard, ['é'])],
          { text := ['.'], tokens := [MatcherToken.WildCard], most_tokens_matched := 1 })) :=
  ⟨by decide, wildcard_matches_full_codepoint 'é' ['x'] (by decide)⟩

/-- Helper: the token loop records at most one pair per token, so the
result is never longer than the token list. -/
theorem matchLoop_length_le (toks : List MatcherToken) (s : List Char)
    (pairs : List (MatcherToken × List Char)) (h : matchLoop toks s = some pairs) :
    pairs.length ≤ toks.length := by
  induction toks generalizing s pairs with
  | nil =>
    simp only [matchLoop, Option.some.injEq] at h
    subst h
    simp
  | cons t rest ih =>
    cases t with
    | WildCard =>
      simp only [matchLoop, Option.bind_eq_some, Option.map_eq_some'] at h
      obtain ⟨c, hc, matched, ht, s2, hd, l, hml, hpl⟩ := h
      subst hpl
      simpa using ih s2 l hml
    | OneOfText alts =>
      simp only [matchLoop] at h
      cases hv : selectAlternative alts s with
      | none =>
        rw [hv] at h
        simp only [Option.elim_none, Option.some.injEq] at h
        subst h
        simp
      | some v =>
        rw [hv] at h
        simp only [Option.elim_some, Option.bind_eq_some, Option.map_eq_some'] at h
        obtain ⟨matched, ht, s2, hd, l, hml, hpl⟩ := h
        subst hpl
        simpa using ih s2 l hml
    | RawText v =>
      simp only [matchLoop] at h
      by_cases hpref : List.isPrefixOf v s = true
      case neg =>
        rw [if_neg hpref] at h
        simp only [Option.some.injEq] at h
        subst h
        simp
      case pos =>
        rw [if_pos hpref] at h
        simp only [Option.bind_eq_some, Option.map_eq_some'] at h
        obtain ⟨matched, ht, s2, hd, l, hml, hpl⟩ := h
        subst hpl
        simpa using ih s2 l hml

/-- Claim C10: a completed `match_string` call returns at most one pair
per token, so the result length is bounded by the token count; and the
invariant that `most_tokens_matched` never exceeds the token count is
preserved by every completed call (the token list itself is unchanged). -/
theorem match_result_length_le_tokens (m : Matcher) (s : List Char)
    (pairs : List (MatcherToken × List Char)) (m' : Matcher)
    (h : m.match_string s = some (pairs, m'))
    (hinv : m.most_tokens_matched ≤ m.tokens.length) :
    pairs.length ≤ m.tokens.length ∧ m'.most_tokens_matched ≤ m'.tokens.length := by
  unfold Matcher.match_string at h
  cases hml : matchLoop m.tokens s with
  | none => rw [hml] at h; exact absurd h (by simp)
  | some p =>
    rw [hml] at h
    simp only [Option.map_some', Option.some.injEq, Prod.mk.injEq] at h
    obtain ⟨hp, hm⟩ := h
    subst hp
    subst hm
    have hlen := matchLoop_length_le m.tokens s p hml
    refine ⟨hlen, ?_⟩
    show (if p.length > m.most_tokens_matched then p.length
        else m.most_tokens_matched) ≤ m.tokens.length
    split <;> omega

/-- Witness for claim C10 at the matcher of pattern `"."` matched against
the candidate `"x"`. -/
theorem match_result_length_le_tokens_witness :
    Matcher.match_string
        { text := ['.'], tokens := [MatcherToken.WildCard], most_tokens_matched := 0 } ['x'] =
      some ([(MatcherToken.WildCard, ['x'])],
        { text := ['.'], tokens := [MatcherToken.WildCard], most_tokens_matched := 1 }) ∧
    ({ text := ['.'], tokens := [MatcherToken.WildCard], most_tokens_matched := 0 } : Matcher).most_tokens_matched ≤
      ({ text := ['.'], tokens := [MatcherToken.WildCard], most_tokens_matched := 0 } : Matcher).tokens.length ∧
    ([(MatcherToken.WildCard, ['x'])].length ≤
        ({ text := ['.'], tokens := [MatcherToken.WildCard], most_tokens_matched := 0 } : Matcher).tokens.length ∧
      ({ text := ['.'], tokens := [MatcherToken.WildCard], most_tokens_matched := 1 } : Matcher).most_tokens_matched ≤
        ({ text := ['.'], tokens := [MatcherToken.WildCard], most_tokens_matched := 1 } : Matcher).tokens.length) :=
  ⟨by decide, by decide,
    match_result_length_le_tokens _ ['x'] _ _ (by decide) (by decide)⟩
